import Mathlib

/-!
Verification development for the student record-management program
(`Ds_Mini_Project/main.py`).

The program's core is embedded shallowly:

* Python strings are modelled as `List Char` (`PyStr`); `str.strip`,
  `str.upper`, `str.lower` and f-string formatting are modelled by
  executable functions below, faithful on the ASCII range the program uses.
* The SQLite store is modelled as a list of student rows plus the
  `next_prn` meta counter (`DB`).  The UNIQUE constraints of the
  `students` table (prn PRIMARY KEY, class_roll UNIQUE, username UNIQUE)
  are modelled by explicit checks in `Storage.insert_student` and
  `Storage.update_student`, which fail with a conflict error exactly when
  SQLite would raise `IntegrityError`.
* Python exceptions are modelled by the error type `DBError`, following
  the error taxonomy of the specification: `ValueError` raised by
  `validate_nonempty` becomes `validationError`, the "already exists"
  `ValueError` and SQLite `IntegrityError` become `conflictError`, the
  "division(s) full" `ValueError` becomes `capacityError`,
  "Student not found." becomes `notFoundError`, `PermissionError`
  becomes `authorizationError`, and SQLite `OperationalError` (malformed
  SQL) becomes `storageError`.
* Stateful methods return the post-call state next to the result
  (`DB × Except DBError _`), because `Storage.get_next_prn` commits its
  increment before `register_student` can still fail.
-/

/-- Python strings are modelled as lists of characters. -/
abbrev PyStr := List Char

/-- Models the whitespace set stripped by Python `str.strip()` (ASCII part:
space, tab, newline, carriage return, vertical tab, form feed). -/
def pyIsSpace (c : Char) : Bool :=
  c.toNat == 32 || c.toNat == 9 || c.toNat == 10 || c.toNat == 13 ||
    c.toNat == 11 || c.toNat == 12

/-- Models Python `str.upper()` on one character (ASCII range). -/
def pyUpperChar (c : Char) : Char :=
  if 97 ≤ c.toNat ∧ c.toNat ≤ 122 then Char.ofNat (c.toNat - 32) else c

/-- Models Python `str.lower()` on one character (ASCII range). -/
def pyLowerChar (c : Char) : Char :=
  if 65 ≤ c.toNat ∧ c.toNat ≤ 90 then Char.ofNat (c.toNat + 32) else c

/-- Models Python `str.upper()`. -/
def pyUpper (s : PyStr) : PyStr := s.map pyUpperChar

/-- Models Python `str.lower()`. -/
def pyLower (s : PyStr) : PyStr := s.map pyLowerChar

/-- Drops the longest suffix whose characters all satisfy `p`
(helper for modelling `str.strip()`). -/
def dropTrailing (p : Char → Bool) : PyStr → PyStr
  | [] => []
  | c :: l => if (dropTrailing p l).isEmpty && p c then [] else c :: dropTrailing p l

/-- Models Python `str.strip()`: whitespace removed from both ends. -/
def pyStrip (s : PyStr) : PyStr := dropTrailing pyIsSpace (s.dropWhile pyIsSpace)

/-- Decimal digit character (valid for `n ≤ 9`). -/
def digitChar (n : Nat) : Char := Char.ofNat (48 + n)

/-- Models the Python format `f"{n:02d}"` for `n < 100`: two decimal digits,
zero padded.  The program only formats values `1 ≤ n ≤ 70` with it. -/
def pad2 (n : Nat) : PyStr := [digitChar (n / 10), digitChar (n % 10)]

/-- Fuel-driven decimal printer (structural recursion so that the kernel can
evaluate it); correct whenever `n < fuel`. -/
def natToStrAux : Nat → Nat → PyStr
  | 0, _ => []
  | fuel + 1, n =>
    if n < 10 then [digitChar n] else natToStrAux fuel (n / 10) ++ [digitChar (n % 10)]

/-- Models Python `str(n)` for a natural number. -/
def natToStr (n : Nat) : PyStr := natToStrAux (n + 1) n

/-- Models Python `int(s)` on a string of decimal digits. -/
def pyInt (s : PyStr) : Nat := s.foldl (fun acc c => acc * 10 + (c.toNat - 48)) 0

/-- Models `json.dumps` on a plain string payload (the program stores the
`extra` metadata JSON-encoded; the encoding itself is peripheral, no claim
inspects the encoded text). -/
def jsonDump (s : PyStr) : PyStr := '"' :: (s ++ ['"'])

/-- Models `hashlib.sha256(...).hexdigest()` as an abstract deterministic
function of its input.  Password hashing is an external collaborator of the
core (spec §6); no claim depends on actual digest values. -/
def sha256hex (s : PyStr) : PyStr := '#' :: s

/-- Constant `COLLEGE_DOMAIN = "college.edu"` from the source. -/
def COLLEGE_DOMAIN : PyStr := ['c', 'o', 'l', 'l', 'e', 'g', 'e', '.', 'e', 'd', 'u']

/-- Constant `MAX_PER_DIVISION = 70` from the source. -/
def MAX_PER_DIVISION : Nat := 70

/-- Constant `DIVISIONS = ["1", "2", "3"]` from the source. -/
def DIVISIONS : List PyStr := [['1'], ['2'], ['3']]

/-- Source `branch_code`: uppercase of the stripped branch, first two
characters, padded with `'X'` if shorter than two. -/
def branch_code (branch : PyStr) : PyStr :=
  let b := pyUpper (pyStrip branch)
  let code := pyUpper (b.take 2)
  if code.length < 2 then (code ++ ['X']).take 2 else code

/-- One row of the `students` table. -/
structure Student where
  prn : PyStr
  class_roll : PyStr
  username : PyStr
  salt : PyStr
  pw_hash : PyStr
  first_name : PyStr
  last_name : PyStr
  branch : PyStr
  division : PyStr
  email : PyStr
  extra : PyStr
deriving DecidableEq

/-- The persistent store: the `students` table and the `next_prn` meta
counter (teachers play no part in the claims). -/
structure DB where
  nextPrn : Nat
  students : List Student
deriving DecidableEq

/-- State created by `Storage._init_schema` on a fresh database:
no students, `next_prn` = 1001. -/
def initDB : DB := { nextPrn := 1001, students := [] }

/-- Error taxonomy (see the module docstring for the mapping from Python
exceptions). -/
inductive DBError where
  | validationError (field : String)
  | conflictError (field : String)
  | capacityError
  | notFoundError
  | authorizationError
  | storageError
deriving DecidableEq

/-- Source `validate_nonempty`: rejects empty / whitespace-only strings,
returns the stripped string. -/
def validate_nonempty (s : PyStr) (name : String) : Except DBError PyStr :=
  if s = [] ∨ pyStrip s = [] then .error (.validationError name) else .ok (pyStrip s)

/-- Source `Storage.get_next_prn`: reads the counter, commits the increment,
returns the pre-increment value as a string. -/
def Storage.get_next_prn (db : DB) : DB × PyStr :=
  ({ db with nextPrn := db.nextPrn + 1 }, natToStr db.nextPrn)

/-- Source `Storage.count_by_branch_division` restricted to one division:
rows with `branch = branch.upper()` and the given division. -/
def Storage.count_by_branch_division (db : DB) (branch division : PyStr) : Nat :=
  (db.students.filter (fun s => s.branch == pyUpper branch && s.division == division)).length

/-- Source `Storage.find_student_by_prn`. -/
def Storage.find_student_by_prn (db : DB) (prn : PyStr) : Option Student :=
  db.students.find? (fun s => s.prn == prn)

/-- Source `Storage.find_student_by_username`. -/
def Storage.find_student_by_username (db : DB) (username : PyStr) : Option Student :=
  db.students.find? (fun s => s.username == username)

/-- Boolean pairwise-distinctness check on a list of strings. -/
def nodupB : List PyStr → Bool
  | [] => true
  | x :: xs => !(xs.contains x) && nodupB xs

/-- The UNIQUE constraints of the `students` table: prn (PRIMARY KEY),
class_roll, username. -/
def uniqueOk (l : List Student) : Bool :=
  nodupB (l.map (fun s => s.prn)) && nodupB (l.map (fun s => s.class_roll)) &&
    nodupB (l.map (fun s => s.username))

/-- Source `Storage.insert_student`: a single INSERT; SQLite raises
`IntegrityError` when a uniqueness constraint would be violated. -/
def Storage.insert_student (db : DB) (s : Student) : Except DBError DB :=
  if db.students.any (fun t => t.prn == s.prn) then .error (.conflictError ("prn"))
  else if db.students.any (fun t => t.class_roll == s.class_roll) then
    .error (.conflictError ("class_roll"))
  else if db.students.any (fun t => t.username == s.username) then
    .error (.conflictError ("username"))
  else .ok { db with students := db.students ++ [s] }

/-- Column names of the `students` table; a SET clause naming anything else
would make the UPDATE statement fail. -/
def isColumn (k : String) : Bool :=
  ["prn", "class_roll", "username", "salt", "pw_hash", "first_name", "last_name",
    "branch", "division", "email", "extra"].contains k

/-- Assigns one named column of a row. -/
def applyField (s : Student) (k : String) (v : PyStr) : Student :=
  if k == "prn" then { s with prn := v }
  else if k == "class_roll" then { s with class_roll := v }
  else if k == "username" then { s with username := v }
  else if k == "salt" then { s with salt := v }
  else if k == "pw_hash" then { s with pw_hash := v }
  else if k == "first_name" then { s with first_name := v }
  else if k == "last_name" then { s with last_name := v }
  else if k == "branch" then { s with branch := v }
  else if k == "division" then { s with division := v }
  else if k == "email" then { s with email := v }
  else if k == "extra" then { s with extra := v }
  else s

/-- Effect of the SET assignments of `Storage.update_student` on one row:
each binding assigns its column, the `extra` value is passed through
`json.dumps` first. -/
def applyUpdates (s : Student) (updates : List (String × PyStr)) : Student :=
  updates.foldl (fun t kv =>
    applyField t kv.1 (if kv.1 == "extra" then jsonDump kv.2 else kv.2)) s

/-- Source `Storage.update_student`: builds `UPDATE students SET ... WHERE
prn = ?` from the updates map.  With no updates the SET clause is empty and
the statement is malformed — SQLite raises `OperationalError`
(`storageError` here); likewise for a key that is not a column.  SQLite
re-checks the UNIQUE constraints on update. -/
def Storage.update_student (db : DB) (prn : PyStr) (updates : List (String × PyStr)) :
    Except DBError DB :=
  if updates.isEmpty then .error .storageError
  else if updates.any (fun kv => !(isColumn kv.1)) then .error .storageError
  else
    let newStudents := db.students.map (fun s =>
      if s.prn == prn then applyUpdates s updates else s)
    if uniqueOk newStudents then .ok { db with students := newStudents }
    else .error (.conflictError ("unique"))

/-- Source `Storage.delete_student`: `DELETE FROM students WHERE prn = ?`. -/
def Storage.delete_student (db : DB) (prn : PyStr) : DB :=
  { db with students := db.students.filter (fun s => !(s.prn == prn)) }

/-- Loop body of `StudentDB._assign_division`: scan `DIVISIONS` in order,
return the first division whose count is strictly below capacity. -/
def assignLoop (db : DB) (branch : PyStr) : List PyStr → Except DBError PyStr
  | [] => .error .capacityError
  | d :: rest =>
    if Storage.count_by_branch_division db branch d < MAX_PER_DIVISION then .ok d
    else assignLoop db branch rest

/-- Source `StudentDB._assign_division`. -/
def StudentDB.assign_division (db : DB) (branch : PyStr) : Except DBError PyStr :=
  assignLoop db branch DIVISIONS

/-- Source `StudentDB._generate_class_roll`: next roll is live count + 1,
rejected past capacity, rendered `branch_code ++ division ++ pad2`. -/
def StudentDB.generate_class_roll (db : DB) (branch division : PyStr) : Except DBError PyStr :=
  let current := Storage.count_by_branch_division db branch division + 1
  if current > MAX_PER_DIVISION then .error .capacityError
  else .ok (branch_code branch ++ division ++ pad2 current)

/-- Source `StudentDB._generate_email`. -/
def StudentDB.generate_email (first_name last_name prn branch : PyStr) : PyStr :=
  (pyLower first_name ++ ['.'] ++ pyLower last_name ++ ['.'] ++ prn) ++
    ['@'] ++ pyLower branch ++ ['.'] ++ COLLEGE_DOMAIN

/-- Source `StudentDB.register_student`.  The extra argument `salt` stands
for the random salt `hash_password` draws (external randomness made
explicit); `extra` is the metadata payload.  The post-call state is
returned in both outcomes because `get_next_prn` commits its increment
before the later steps can still fail. -/
def StudentDB.register_student (db : DB)
    (username password first_name last_name branch salt extra : PyStr) :
    DB × Except DBError Student :=
  match validate_nonempty username ("username") with
  | .error e => (db, .error e)
  | .ok u =>
    let uname := pyLower u
    match Storage.find_student_by_username db uname with
    | some _ => (db, .error (.conflictError ("username")))
    | none =>
      let pr := Storage.get_next_prn db
      let db1 := pr.1
      let prn := pr.2
      let pw_hash := sha256hex (salt ++ password)
      match StudentDB.assign_division db1 branch with
      | .error e => (db1, .error e)
      | .ok division =>
        match StudentDB.generate_class_roll db1 branch division with
        | .error e => (db1, .error e)
        | .ok class_roll =>
          let email := StudentDB.generate_email first_name last_name prn branch
          let student : Student := {
            prn := prn, class_roll := class_roll, username := uname,
            salt := salt, pw_hash := pw_hash,
            first_name := pyStrip first_name, last_name := pyStrip last_name,
            branch := pyUpper (pyStrip branch), division := division,
            email := email, extra := jsonDump extra }
          match Storage.insert_student db1 student with
          | .error e => (db1, .error e)
          | .ok db2 => (db2, .ok student)

/-- The edit allow-list from `StudentDB.edit_student`. -/
def allowedFields : List String := ["first_name", "last_name", "email", "extra", "branch"]

/-- Value a Python dict built from this association list would hold at `k`
(the last binding wins). -/
def lastVal (l : List (String × PyStr)) (k : String) : Option PyStr :=
  (l.reverse.find? (fun kv => kv.1 == k)).map (fun kv => kv.2)

/-- Sets key `k` to `v` in dict fashion: the resulting association list binds
`k` to `v` and every other key to its previous value, as `applied[k] = v`
does on the Python dict.  (The list is normalised so the binding for `k`
sits last; a Python dict cannot hold duplicate keys and every consumer of
`applied` — the SET clauses of the UPDATE and the key lookups — is
insensitive to the binding order, so this is observationally the same.) -/
def setKey (l : List (String × PyStr)) (k : String) (v : PyStr) : List (String × PyStr) :=
  l.filter (fun kv => !(kv.1 == k)) ++ [(k, v)]

/-- Truthiness of the optional `editor_branch` argument: Python's
`if editor_branch` is false for `None` and for the empty string. -/
def pyTruthy : Option PyStr → Bool
  | none => false
  | some s => !(s.isEmpty)

/-- Source `StudentDB.edit_student`: find, authorize, filter the updates to
the allow-list, on a branch change re-run allocation against the new branch
and overwrite branch/division/class_roll, then one UPDATE.  Values are
string payloads, so the `isinstance(..., str)` re-encoding of `extra` inside
`edit_student` is a no-op here (the one inside `update_student` applies). -/
def StudentDB.edit_student (db : DB) (prn : PyStr) (updates : List (String × PyStr))
    (editor_branch : Option PyStr) : DB × Except DBError (Option Student) :=
  match Storage.find_student_by_prn db prn with
  | none => (db, .error .notFoundError)
  | some s =>
    if pyTruthy editor_branch && !(pyUpper s.branch == pyUpper (editor_branch.getD [])) then
      (db, .error .authorizationError)
    else
      let applied := updates.filter (fun kv => allowedFields.contains kv.1)
      let appliedE : Except DBError (List (String × PyStr)) :=
        match lastVal applied ("branch") with
        | none => .ok applied
        | some bval =>
          let new_branch := pyUpper bval
          match StudentDB.assign_division db new_branch with
          | .error e => .error e
          | .ok new_div =>
            match StudentDB.generate_class_roll db new_branch new_div with
            | .error e => .error e
            | .ok new_roll =>
              .ok (setKey (setKey (setKey applied ("branch") new_branch)
                    ("division") new_div) ("class_roll") new_roll)
      match appliedE with
      | .error e => (db, .error e)
      | .ok applied2 =>
        match Storage.update_student db prn applied2 with
        | .error e => (db, .error e)
        | .ok db2 => (db2, .ok (Storage.find_student_by_prn db2 prn))

/-- Source `StudentDB.delete_student`: find, authorize, delete. -/
def StudentDB.delete_student (db : DB) (prn : PyStr) (editor_branch : Option PyStr) :
    DB × Except DBError Bool :=
  match Storage.find_student_by_prn db prn with
  | none => (db, .error .notFoundError)
  | some s =>
    if pyTruthy editor_branch && !(pyUpper s.branch == pyUpper (editor_branch.getD [])) then
      (db, .error .authorizationError)
    else
      (Storage.delete_student db prn, .ok true)

/-- The mutating operations of the core, for stating run invariants. -/
inductive Op where
  | register (username password first_name last_name branch salt extra : PyStr)
  | edit (prn : PyStr) (updates : List (String × PyStr)) (editor_branch : Option PyStr)
  | delete (prn : PyStr) (editor_branch : Option PyStr)

/-- State after one operation (result discarded). -/
def stepOp (db : DB) : Op → DB
  | .register u p f l b s e => (StudentDB.register_student db u p f l b s e).1
  | .edit prn upd eb => (StudentDB.edit_student db prn upd eb).1
  | .delete prn eb => (StudentDB.delete_student db prn eb).1

/-- State after a sequence of operations. -/
def runOps (db : DB) : List Op → DB
  | [] => db
  | op :: ops => runOps (stepOp db op) ops

/-- PRN strings consumed from the counter by one operation: a registration
consumes exactly one PRN once it passes validation and the username
pre-check (even if it later fails); edits and deletes consume none. -/
def issuedInOp (db : DB) : Op → List PyStr
  | .register u _ _ _ _ _ _ =>
    match validate_nonempty u ("username") with
    | .error _ => []
    | .ok u' =>
      match Storage.find_student_by_username db (pyLower u') with
      | some _ => []
      | none => [(Storage.get_next_prn db).2]
  | .edit _ _ _ => []
  | .delete _ _ => []

/-- All PRN strings consumed along a run. -/
def issuedPrns (db : DB) : List Op → List PyStr
  | [] => []
  | op :: ops => issuedInOp db op ++ issuedPrns (stepOp db op) ops

/-- Email derivation as the specification words it: pure function producing
`lower(first).lower(last).prn@lower(branch).college.edu`.  Written from the
spec sentence, to be compared with the source's `generate_email`. -/
def derive_email_spec (first_name last_name prn branch : PyStr) : PyStr :=
  pyLower first_name ++ ['.'] ++ pyLower last_name ++ ['.'] ++ prn ++ ['@'] ++
    pyLower branch ++ ['.'] ++ ['c', 'o', 'l', 'l', 'e', 'g', 'e', '.', 'e', 'd', 'u']


/-- Well-formedness of a stored class roll: the branch code of the stored
branch, the stored division, and a two-digit sequence number between 1 and
the division capacity. -/
def RollOK (s : Student) : Prop :=
  ∃ n, 1 ≤ n ∧ n ≤ MAX_PER_DIVISION ∧
    s.class_roll = branch_code s.branch ++ s.division ++ pad2 n

/-- Inductive invariant for the capacity bound: every stored roll is well
formed and the rolls are globally distinct (the UNIQUE constraint). -/
def DBInv (db : DB) : Prop :=
  (∀ s ∈ db.students, RollOK s) ∧ (db.students.map (fun s => s.class_roll)).Nodup

/-! ### Basic facts about the character and string model -/

/-- Helper to write concrete Python strings. -/
def pyOfString (s : String) : PyStr := s.data

/-- Scenario: three registrations into branch CS (the spec's sequence-reuse
example; they receive rolls CS101, CS102, CS103 and PRNs 1001-1003). -/
def opsThree : List Op :=
  [ .register (pyOfString ("u1")) (pyOfString ("pw")) (pyOfString ("Ann")) (pyOfString ("One"))
      (pyOfString ("CS")) [] [],
    .register (pyOfString ("u2")) (pyOfString ("pw")) (pyOfString ("Bob")) (pyOfString ("Two"))
      (pyOfString ("CS")) [] [],
    .register (pyOfString ("u3")) (pyOfString ("pw")) (pyOfString ("Cat")) (pyOfString ("Tre"))
      (pyOfString ("CS")) [] [] ]

/-- State holding the three CS students. -/
def dbThree : DB := runOps initDB opsThree

/-- State after deleting the middle student (roll CS102, prn 1002). -/
def dbDelMid : DB := (StudentDB.delete_student dbThree (pyOfString ("1002")) none).1

/-- State after deleting the last student (roll CS103, prn 1003). -/
def dbDelLast : DB := (StudentDB.delete_student dbThree (pyOfString ("1003")) none).1

/-- Registration attempted after the middle roll was freed. -/
def regAfterMid : DB × Except DBError Student :=
  StudentDB.register_student dbDelMid (pyOfString ("u4")) (pyOfString ("pw")) (pyOfString ("Dee"))
    (pyOfString ("Kim")) (pyOfString ("CS")) [] []

/-- Registration attempted after the last roll was freed. -/
def regAfterLast : DB × Except DBError Student :=
  StudentDB.register_student dbDelLast (pyOfString ("u5")) (pyOfString ("pw")) (pyOfString ("Eve"))
    (pyOfString ("Fox")) (pyOfString ("CS")) [] []

/-- Scenario for C2: two EC registrations, then the first (roll EC101) is
deleted; `next_prn` stands at 1003. -/
def dbTwoDel : DB :=
  runOps initDB
    [ .register (pyOfString ("w1")) (pyOfString ("pw")) (pyOfString ("Ann")) (pyOfString ("One"))
        (pyOfString ("EC")) [] [],
      .register (pyOfString ("w2")) (pyOfString ("pw")) (pyOfString ("Bob")) (pyOfString ("Two"))
        (pyOfString ("EC")) [] [],
      .delete (pyOfString ("1001")) none ]

/-- Registration into EC after the deletion: computes roll EC102, which
collides with the surviving EC102. -/
def regAfterDel : DB × Except DBError Student :=
  StudentDB.register_student dbTwoDel (pyOfString ("w3")) (pyOfString ("pw")) (pyOfString ("Cat"))
    (pyOfString ("Tre")) (pyOfString ("EC")) [] []

/-- A one-student state: the result of registering user "u" into CS. -/
def dbOne : DB :=
  (StudentDB.register_student initDB ['u'] ['p'] ['A'] ['B'] (pyOfString ("CS")) [] []).1

/-- The row dbOne holds, written out. -/
def wStudent : Student :=
  { prn := pyOfString ("1001"), class_roll := pyOfString ("CS101"), username := ['u'],
    salt := [], pw_hash := ['#', 'p'], first_name := ['A'], last_name := ['B'],
    branch := pyOfString ("CS"), division := ['1'],
    email := pyOfString ("a.b.1001@cs.college.edu"), extra := ['"', '"'] }

/-- The same row after an edit setting first_name to "N". -/
def wStudentEdited : Student := { wStudent with first_name := ['N'] }

/-- A row used only to fill divisions for capacity witnesses. -/
def fullStudent (d : PyStr) : Student :=
  { prn := [], class_roll := [], username := [], salt := [], pw_hash := [],
    first_name := [], last_name := [], branch := pyOfString ("CS"), division := d,
    email := [], extra := [] }

/-- A branch CS packed to capacity: 70 rows in each of the three divisions. -/
def packedDB : DB :=
  { nextPrn := 1001,
    students := List.replicate 70 (fullStudent ['1']) ++ List.replicate 70 (fullStudent ['2']) ++
      List.replicate 70 (fullStudent ['3']) }

/-- Branch CS with 69 rows in division 1 and none elsewhere. -/
def almostFullDB : DB :=
  { nextPrn := 1001, students := List.replicate 69 (fullStudent ['1']) }

set_option maxRecDepth 4096 in
theorem charOfNat_toNat_small : ∀ m, m < 256 → (Char.ofNat m).toNat = m := by decide

theorem isEmpty_true_iff (l : PyStr) : l.isEmpty = true ↔ l = [] := by
  cases l <;> simp

theorem isEmpty_map (f : Char → Char) (l : PyStr) : (l.map f).isEmpty = l.isEmpty := by
  cases l <;> rfl

theorem pyIsSpace_eq_false_of_ge (c : Char) (h : 65 ≤ c.toNat) : pyIsSpace c = false := by
  simp only [pyIsSpace, Bool.or_eq_false_iff, beq_eq_false_iff_ne, ne_eq]
  omega

theorem pyIsSpace_upperChar (c : Char) : pyIsSpace (pyUpperChar c) = pyIsSpace c := by
  unfold pyUpperChar
  split
  · next h =>
    have h1 : (Char.ofNat (c.toNat - 32)).toNat = c.toNat - 32 :=
      charOfNat_toNat_small _ (by omega)
    rw [pyIsSpace_eq_false_of_ge _ (by rw [h1]; omega), pyIsSpace_eq_false_of_ge c (by omega)]
  · rfl

theorem pyUpperChar_idem (c : Char) : pyUpperChar (pyUpperChar c) = pyUpperChar c := by
  by_cases h : 97 ≤ c.toNat ∧ c.toNat ≤ 122
  · have hu : pyUpperChar c = Char.ofNat (c.toNat - 32) := by rw [pyUpperChar, if_pos h]
    have h1 : (Char.ofNat (c.toNat - 32)).toNat = c.toNat - 32 :=
      charOfNat_toNat_small _ (by omega)
    rw [hu, pyUpperChar, if_neg (by rw [h1]; omega)]
  · have hu : pyUpperChar c = c := by rw [pyUpperChar, if_neg h]
    rw [hu, hu]

theorem pyUpper_idem (s : PyStr) : pyUpper (pyUpper s) = pyUpper s := by
  induction s with
  | nil => rfl
  | cons c l ih =>
    simp only [pyUpper, List.map_cons] at ih ⊢
    rw [pyUpperChar_idem, ih]

theorem dropWhile_pyUpper (s : PyStr) :
    List.dropWhile pyIsSpace (pyUpper s) = pyUpper (List.dropWhile pyIsSpace s) := by
  unfold pyUpper
  rw [List.dropWhile_map]
  have h : (pyIsSpace ∘ pyUpperChar) = pyIsSpace := funext pyIsSpace_upperChar
  rw [h]

theorem dropTrailing_pyUpper (s : PyStr) :
    dropTrailing pyIsSpace (pyUpper s) = pyUpper (dropTrailing pyIsSpace s) := by
  induction s with
  | nil => rfl
  | cons c l ih =>
    simp only [pyUpper, List.map_cons] at ih ⊢
    simp only [dropTrailing]
    rw [ih, isEmpty_map, pyIsSpace_upperChar, apply_ite (List.map pyUpperChar)]
    simp only [List.map_nil, List.map_cons]

theorem pyStrip_pyUpper (s : PyStr) : pyStrip (pyUpper s) = pyUpper (pyStrip s) := by
  unfold pyStrip
  rw [dropWhile_pyUpper, dropTrailing_pyUpper]

theorem dropWhile_idem (p : Char → Bool) (l : PyStr) :
    List.dropWhile p (List.dropWhile p l) = List.dropWhile p l := by
  induction l with
  | nil => rfl
  | cons c l ih =>
    by_cases h : p c
    · rw [List.dropWhile_cons, if_pos h, ih]
    · rw [List.dropWhile_cons, if_neg h, List.dropWhile_cons, if_neg h]

theorem dropTrailing_idem (p : Char → Bool) (l : PyStr) :
    dropTrailing p (dropTrailing p l) = dropTrailing p l := by
  induction l with
  | nil => rfl
  | cons c l ih =>
    by_cases hg : ((dropTrailing p l).isEmpty && p c) = true
    · have h1 : dropTrailing p (c :: l) = [] := by
        simp only [dropTrailing]
        rw [if_pos hg]
      rw [h1]
      rfl
    · have h1 : dropTrailing p (c :: l) = c :: dropTrailing p l := by
        simp only [dropTrailing]
        rw [if_neg hg]
      rw [h1]
      simp only [dropTrailing]
      rw [ih, if_neg hg]

theorem dropWhile_dropTrailing (p : Char → Bool) (l : PyStr) :
    List.dropWhile p (dropTrailing p l) = dropTrailing p (List.dropWhile p l) := by
  induction l with
  | nil => rfl
  | cons c l ih =>
    by_cases h : p c
    · rw [List.dropWhile_cons, if_pos h]
      by_cases hr : dropTrailing p l = []
      · have h1 : dropTrailing p (c :: l) = [] := by
          simp only [dropTrailing]
          rw [if_pos (by rw [hr]; simp [h])]
        rw [h1, List.dropWhile_nil, ← ih, hr, List.dropWhile_nil]
      · have h1 : dropTrailing p (c :: l) = c :: dropTrailing p l := by
          simp only [dropTrailing]
          rw [if_neg]
          intro hcontra
          simp only [Bool.and_eq_true] at hcontra
          exact hr ((isEmpty_true_iff _).mp hcontra.1)
        rw [h1, List.dropWhile_cons, if_pos h, ih]
    · have h1 : dropTrailing p (c :: l) = c :: dropTrailing p l := by
        simp only [dropTrailing]
        rw [if_neg]
        intro hcontra
        simp only [Bool.and_eq_true] at hcontra
        exact h hcontra.2
      rw [h1, List.dropWhile_cons, if_neg h, List.dropWhile_cons, if_neg h, h1]

theorem pyStrip_idem (s : PyStr) : pyStrip (pyStrip s) = pyStrip s := by
  unfold pyStrip
  rw [dropWhile_dropTrailing, dropWhile_idem, dropTrailing_idem]

theorem pyStripUpper_idem (s : PyStr) :
    pyUpper (pyStrip (pyUpper (pyStrip s))) = pyUpper (pyStrip s) := by
  rw [pyStrip_pyUpper, pyUpper_idem, pyStrip_idem]

theorem branch_code_norm (s : PyStr) :
    branch_code (pyUpper (pyStrip s)) = branch_code s := by
  simp only [branch_code]
  rw [pyStripUpper_idem]

/-! ### Facts about the decimal printer -/

theorem digitChar_toNat (d : Nat) (h : d < 10) : (digitChar d).toNat = 48 + d := by
  have h1 := charOfNat_toNat_small (48 + d) (by omega)
  simpa [digitChar] using h1

theorem pyInt_append_digit (l : PyStr) (c : Char) :
    pyInt (l ++ [c]) = pyInt l * 10 + (c.toNat - 48) := by
  unfold pyInt
  rw [List.foldl_append]
  rfl

theorem pyInt_natToStrAux (fuel : Nat) : ∀ n, n < fuel → pyInt (natToStrAux fuel n) = n := by
  induction fuel with
  | zero => omega
  | succ fuel ih =>
    intro n hn
    simp only [natToStrAux]
    by_cases h10 : n < 10
    · rw [if_pos h10]
      have hd := digitChar_toNat n h10
      simp only [pyInt, List.foldl_cons, List.foldl_nil]
      rw [hd]
      omega
    · rw [if_neg h10]
      have hlt : n / 10 < n := Nat.div_lt_self (by omega) (by omega)
      rw [pyInt_append_digit, ih (n / 10) (by omega)]
      have hd : (digitChar (n % 10)).toNat = 48 + n % 10 := digitChar_toNat _ (by omega)
      rw [hd]
      omega

theorem pyInt_natToStr (n : Nat) : pyInt (natToStr n) = n :=
  pyInt_natToStrAux (n + 1) n (Nat.lt_succ_self n)

set_option maxRecDepth 8192 in
theorem pad2_inj : ∀ m, m < 100 → ∀ n, n < 100 → pad2 m = pad2 n → m = n := by decide

/-! ### Unfolding helpers for the registration path -/

theorem insert_student_ok (db db2 : DB) (s : Student)
    (h : Storage.insert_student db s = .ok db2) :
    db2 = { db with students := db.students ++ [s] } := by
  unfold Storage.insert_student at h
  repeat' split at h
  all_goals simp_all

theorem register_empty_username (db : DB) (u pw fn ln br salt extra : PyStr)
    (h : pyStrip u = []) :
    StudentDB.register_student db u pw fn ln br salt extra =
      (db, .error (.validationError ("username"))) := by
  simp only [StudentDB.register_student, validate_nonempty]
  rw [if_pos (Or.inr h)]

theorem not_validate_cond (u : PyStr) (hu : pyStrip u ≠ []) : ¬(u = [] ∨ pyStrip u = []) := by
  rintro (h1 | h2)
  · subst h1
    exact hu rfl
  · exact hu h2

theorem register_username_taken (db : DB) (u pw fn ln br salt extra : PyStr) (s : Student)
    (hu : pyStrip u ≠ [])
    (hf : Storage.find_student_by_username db (pyLower (pyStrip u)) = some s) :
    StudentDB.register_student db u pw fn ln br salt extra =
      (db, .error (.conflictError ("username"))) := by
  simp only [StudentDB.register_student, validate_nonempty]
  rw [if_neg (not_validate_cond u hu)]
  simp only [hf]

theorem register_state_cases (db : DB) (u pw fn ln br salt extra : PyStr) :
    (StudentDB.register_student db u pw fn ln br salt extra).1.students = db.students ∨
    (∃ st, StudentDB.register_student db u pw fn ln br salt extra =
      ({ db with nextPrn := db.nextPrn + 1, students := db.students ++ [st] }, .ok st)) := by
  simp only [StudentDB.register_student, Storage.get_next_prn]
  split
  · exact Or.inl rfl
  · split
    · exact Or.inl rfl
    · split
      · exact Or.inl rfl
      · split
        · exact Or.inl rfl
        · split
          · exact Or.inl rfl
          · next heq =>
            exact Or.inr ⟨_, by rw [insert_student_ok _ _ _ heq]⟩

theorem register_late_nextPrn (db : DB) (u pw fn ln br salt extra : PyStr)
    (hu : pyStrip u ≠ [])
    (hf : Storage.find_student_by_username db (pyLower (pyStrip u)) = none) :
    (StudentDB.register_student db u pw fn ln br salt extra).1.nextPrn = db.nextPrn + 1 := by
  simp only [StudentDB.register_student, validate_nonempty, Storage.get_next_prn]
  rw [if_neg (not_validate_cond u hu)]
  simp only [hf]
  split
  · rfl
  · split
    · rfl
    · split
      · rfl
      · next heq =>
        rw [insert_student_ok _ _ _ heq]

/-! ### Claims C7, C4, C5, C10 -/

/-- C7: email derivation is the pure function
`lower(first).lower(last).prn@lower(branch).college.edu`; in particular
("Ann", "Lee", "1007", "CSE") maps to "ann.lee.1007@cse.college.edu". -/
theorem C7_derive_email :
    (∀ first_name last_name prn branch,
      StudentDB.generate_email first_name last_name prn branch =
        derive_email_spec first_name last_name prn branch) ∧
    StudentDB.generate_email (pyOfString ("Ann")) (pyOfString ("Lee")) (pyOfString ("1007"))
      (pyOfString ("CSE")) = pyOfString ("ann.lee.1007@cse.college.edu") := by
  constructor
  · intro fn ln prn br
    simp [StudentDB.generate_email, derive_email_spec, COLLEGE_DOMAIN, List.append_assoc]
  · rfl

/-- C4: `_assign_division` scans the fixed ordered divisions "1","2","3" and
returns the earliest whose count is strictly below capacity; when all three
are at capacity it fails with the capacity error. -/
theorem C4_assign_division :
    ∀ db branch,
      (Storage.count_by_branch_division db branch ['1'] < MAX_PER_DIVISION →
        StudentDB.assign_division db branch = .ok ['1']) ∧
      (MAX_PER_DIVISION ≤ Storage.count_by_branch_division db branch ['1'] →
        Storage.count_by_branch_division db branch ['2'] < MAX_PER_DIVISION →
        StudentDB.assign_division db branch = .ok ['2']) ∧
      (MAX_PER_DIVISION ≤ Storage.count_by_branch_division db branch ['1'] →
        MAX_PER_DIVISION ≤ Storage.count_by_branch_division db branch ['2'] →
        Storage.count_by_branch_division db branch ['3'] < MAX_PER_DIVISION →
        StudentDB.assign_division db branch = .ok ['3']) ∧
      ((∀ d, d ∈ DIVISIONS → MAX_PER_DIVISION ≤ Storage.count_by_branch_division db branch d) →
        StudentDB.assign_division db branch = .error .capacityError) := by
  intro db branch
  refine ⟨?_, ?_, ?_, ?_⟩
  · intro h1
    simp only [StudentDB.assign_division, DIVISIONS, assignLoop]
    rw [if_pos h1]
  · intro h1 h2
    simp only [StudentDB.assign_division, DIVISIONS, assignLoop]
    rw [if_neg (by omega), if_pos h2]
  · intro h1 h2 h3
    simp only [StudentDB.assign_division, DIVISIONS, assignLoop]
    rw [if_neg (by omega), if_neg (by omega), if_pos h3]
  · intro h
    have h1 := h ['1'] (by simp [DIVISIONS])
    have h2 := h ['2'] (by simp [DIVISIONS])
    have h3 := h ['3'] (by simp [DIVISIONS])
    simp only [StudentDB.assign_division, DIVISIONS, assignLoop]
    rw [if_neg (by omega), if_neg (by omega), if_neg (by omega)]

/-- Witness for C4: with 69 students in CS division 1 the next assignment is
still division 1; with all three CS divisions at 70 it is the capacity
error. -/
theorem C4_witness :
    (Storage.count_by_branch_division almostFullDB (pyOfString ("CS")) ['1'] = 69 ∧
      StudentDB.assign_division almostFullDB (pyOfString ("CS")) = .ok ['1']) ∧
    ((∀ d, d ∈ DIVISIONS →
        MAX_PER_DIVISION ≤ Storage.count_by_branch_division packedDB (pyOfString ("CS")) d) ∧
      StudentDB.assign_division packedDB (pyOfString ("CS")) = .error .capacityError) := by
  refine ⟨⟨by decide, (C4_assign_division almostFullDB (pyOfString ("CS"))).1 (by decide)⟩,
    ⟨by decide, (C4_assign_division packedDB (pyOfString ("CS"))).2.2.2 (by decide)⟩⟩

/-- C5 (corrected): only `username` is validated inside register_student: an
empty or whitespace-only username fails with the validation error naming
"username" and leaves the state unchanged.  (The other text fields are not
checked there — see the counterexample.) -/
theorem C5_username_only_validation :
    ∀ db username password first_name last_name branch salt extra,
      pyStrip username = [] →
      StudentDB.register_student db username password first_name last_name branch salt extra =
        (db, .error (.validationError ("username"))) := by
  intro db u pw fn ln br salt extra h
  exact register_empty_username db u pw fn ln br salt extra h

/-- C5 counterexample: a register_student call with an empty `first_name`
does not fail — it creates a record (with an odd email), contradicting the
claim that every empty required field yields a ValidationError. -/
theorem C5_counterexample :
    pyStrip [] = [] ∧
    (StudentDB.register_student initDB (pyOfString ("bob")) (pyOfString ("pw")) []
        (pyOfString ("Lee")) (pyOfString ("CSE")) [] []).2 =
      .ok { prn := pyOfString ("1001"), class_roll := pyOfString ("CS101"),
            username := pyOfString ("bob"), salt := [], pw_hash := pyOfString ("#pw"),
            first_name := [], last_name := pyOfString ("Lee"), branch := pyOfString ("CSE"),
            division := ['1'], email := pyOfString (".lee.1001@cse.college.edu"),
            extra := ['"', '"'] } ∧
    (StudentDB.register_student initDB (pyOfString ("bob")) (pyOfString ("pw")) []
        (pyOfString ("Lee")) (pyOfString ("CSE")) [] []).1.students.length = 1 :=
  ⟨rfl, rfl, rfl⟩

/-- Witness for C5: a whitespace-only username is rejected with the
validation error and nothing is created. -/
theorem C5_witness :
    pyStrip [' '] = [] ∧
    StudentDB.register_student initDB [' '] (pyOfString ("pw")) (pyOfString ("A"))
        (pyOfString ("B")) (pyOfString ("CS")) [] [] =
      (initDB, .error (.validationError ("username"))) :=
  ⟨rfl, C5_username_only_validation initDB [' '] (pyOfString ("pw")) (pyOfString ("A"))
    (pyOfString ("B")) (pyOfString ("CS")) [] [] rfl⟩

/-- C10: an edit_student call on an existing, authorization-passing student
whose updates map contains no allow-listed key reaches update_student with
an empty SET clause and fails with the storage error instead of being a
no-op. -/
theorem C10_empty_set_clause :
    ∀ db prn updates editor_branch s,
      Storage.find_student_by_prn db prn = some s →
      (pyTruthy editor_branch &&
        !(pyUpper s.branch == pyUpper (editor_branch.getD []))) = false →
      updates.filter (fun kv => allowedFields.contains kv.1) = [] →
      StudentDB.edit_student db prn updates editor_branch = (db, .error .storageError) := by
  intro db prn updates eb s hfind hauth hfilter
  simp only [StudentDB.edit_student, hfind, hauth, hfilter]
  rfl

/-- Witness for C10: updates `{"prn": "9"}` (no allow-listed key) on an
existing student is a storage error. -/
theorem C10_witness :
    Storage.find_student_by_prn dbOne (pyOfString ("1001")) = some wStudent ∧
    StudentDB.edit_student dbOne (pyOfString ("1001")) [(("prn"), ['9'])] none =
      (dbOne, .error .storageError) :=
  ⟨rfl, C10_empty_set_clause dbOne (pyOfString ("1001")) [(("prn"), ['9'])] none wStudent
    rfl rfl rfl⟩

/-! ### Claims C1, C2, C8 -/

/-- C1 counterexample: after rolls CS101, CS102, CS103 are issued and the
CS102 holder is deleted, the next registration does not receive CS102 and
does not succeed: the count-based sequence computes count+1 = 3 (CS103),
which collides with the surviving CS103, so the insert fails with a
uniqueness conflict and nothing is inserted. -/
theorem C1_counterexample :
    (Storage.find_student_by_prn dbThree (pyOfString ("1002"))).map (fun s => s.class_roll) =
      some (pyOfString ("CS102")) ∧
    regAfterMid.2 = .error (.conflictError ("class_roll")) ∧
    regAfterMid.1.students = dbDelMid.students :=
  ⟨rfl, rfl, rfl⟩

/-- C1 (corrected): after deleting the middle roll CS102 the next
registration computes class_roll CS103 from the live count, which collides
with the surviving CS103 — it fails with a uniqueness conflict and inserts
nothing; the freed CS102 is not reused.  The freed sequence position is
reused only when it is the highest one: deleting CS103 instead and
registering again yields CS103. -/
theorem C1_sequence_reuse :
    (regAfterMid.2 = .error (.conflictError ("class_roll")) ∧
      regAfterMid.1.students = dbDelMid.students) ∧
    (regAfterLast.2).map (fun s => s.class_roll) = .ok (pyOfString ("CS103")) :=
  ⟨⟨rfl, rfl⟩, rfl⟩

/-- C2 counterexample: with `next_prn` = 1003, a registration that fails at
the final insert (roll collision after a deletion) still leaves the counter
at 1004 — the PRN is consumed, contradicting the claim that a failing call
leaves `next_prn` unchanged. -/
theorem C2_counterexample :
    dbTwoDel.nextPrn = 1003 ∧
    regAfterDel.2 = .error (.conflictError ("class_roll")) ∧
    regAfterDel.1.nextPrn = 1004 :=
  ⟨rfl, rfl, rfl⟩

/-- C2 (corrected): register_student never inserts a record on failure, so
division occupancy and the count-based roll sequence are unchanged by any
failing call, and a failure at validation or at the username pre-check
leaves the whole state (counter included) unchanged; but once those two
steps pass, the counter increment is already committed, so a later failure
(capacity, roll generation, or the final insert) leaves `next_prn` advanced
by one — that PRN is consumed. -/
theorem C2_register_atomicity :
    ∀ db username password first_name last_name branch salt extra,
      (∀ e, (StudentDB.register_student db username password first_name last_name branch
          salt extra).2 = .error e →
        (StudentDB.register_student db username password first_name last_name branch
          salt extra).1.students = db.students) ∧
      (pyStrip username = [] →
        StudentDB.register_student db username password first_name last_name branch salt extra =
          (db, .error (.validationError ("username")))) ∧
      (∀ s, pyStrip username ≠ [] →
        Storage.find_student_by_username db (pyLower (pyStrip username)) = some s →
        StudentDB.register_student db username password first_name last_name branch salt extra =
          (db, .error (.conflictError ("username")))) ∧
      (pyStrip username ≠ [] →
        Storage.find_student_by_username db (pyLower (pyStrip username)) = none →
        ∀ e, (StudentDB.register_student db username password first_name last_name branch
            salt extra).2 = .error e →
          (StudentDB.register_student db username password first_name last_name branch
            salt extra).1.nextPrn = db.nextPrn + 1) := by
  intro db u pw fn ln br salt extra
  refine ⟨?_, ?_, ?_, ?_⟩
  · intro e he
    rcases register_state_cases db u pw fn ln br salt extra with h | ⟨st, hst⟩
    · exact h
    · rw [hst] at he
      exact absurd he (by simp)
  · intro h
    exact register_empty_username db u pw fn ln br salt extra h
  · intro s hu hf
    exact register_username_taken db u pw fn ln br salt extra s hu hf
  · intro hu hf e _
    exact register_late_nextPrn db u pw fn ln br salt extra hu hf

/-- Witness for C2: a concrete early failure leaves the state unchanged and
a concrete late failure (insert conflict) keeps the students unchanged but
advances the counter. -/
theorem C2_witness :
    regAfterDel.1.students = dbTwoDel.students ∧
    StudentDB.register_student dbTwoDel [' '] (pyOfString ("pw")) (pyOfString ("A"))
        (pyOfString ("B")) (pyOfString ("EC")) [] [] =
      (dbTwoDel, .error (.validationError ("username"))) ∧
    regAfterDel.1.nextPrn = dbTwoDel.nextPrn + 1 := by
  refine ⟨?_, ?_, ?_⟩
  · exact (C2_register_atomicity dbTwoDel (pyOfString ("w3")) (pyOfString ("pw"))
      (pyOfString ("Cat")) (pyOfString ("Tre")) (pyOfString ("EC")) [] []).1
      (.conflictError ("class_roll")) rfl
  · exact (C2_register_atomicity dbTwoDel [' '] (pyOfString ("pw")) (pyOfString ("A"))
      (pyOfString ("B")) (pyOfString ("EC")) [] []).2.1 rfl
  · exact (C2_register_atomicity dbTwoDel (pyOfString ("w3")) (pyOfString ("pw"))
      (pyOfString ("Cat")) (pyOfString ("Tre")) (pyOfString ("EC")) [] []).2.2.2
      (by decide) rfl (.conflictError ("class_roll")) rfl

/-- C8 (corrected): for both edit_student and delete_student, an unknown prn
fails with the not-found error, and a supplied, non-empty editor_branch
that differs case-insensitively from the student's branch fails with the
authorization error leaving the state unchanged.  (Non-empty is required:
Python's `if editor_branch` is false for the empty string — see the
counterexample.) -/
theorem C8_edit_delete_guards :
    ∀ db prn updates editor_branch b s,
      (Storage.find_student_by_prn db prn = none →
        StudentDB.edit_student db prn updates editor_branch = (db, .error .notFoundError) ∧
        StudentDB.delete_student db prn editor_branch = (db, .error .notFoundError)) ∧
      (Storage.find_student_by_prn db prn = some s → editor_branch = some b → b ≠ [] →
        pyUpper s.branch ≠ pyUpper b →
        StudentDB.edit_student db prn updates editor_branch = (db, .error .authorizationError) ∧
        StudentDB.delete_student db prn editor_branch = (db, .error .authorizationError)) := by
  intro db prn updates eb b s
  constructor
  · intro hf
    constructor
    · simp only [StudentDB.edit_student, hf]
    · simp only [StudentDB.delete_student, hf]
  · intro hf heb hb hbr
    subst heb
    have hguard : (pyTruthy (some b) &&
        !(pyUpper s.branch == pyUpper ((some b).getD []))) = true := by
      simp only [pyTruthy, Option.getD_some, Bool.and_eq_true, Bool.not_eq_true]
      constructor
      · cases b with
        | nil => exact absurd rfl hb
        | cons c l => rfl
      · rw [beq_eq_false_iff_ne.mpr hbr]
        rfl
    constructor
    · simp only [StudentDB.edit_student, hf, hguard, if_true]
    · simp only [StudentDB.delete_student, hf, hguard, if_true]

/-- C8 counterexample: an empty-string editor_branch is "supplied" and
differs from the student's branch CS, yet both edit and delete succeed —
Python's truthiness test skips the authorization check for `""`. -/
theorem C8_counterexample :
    pyUpper ([] : PyStr) ≠ pyUpper wStudent.branch ∧
    (StudentDB.edit_student dbOne (pyOfString ("1001")) [(("first_name"), ['N'])]
        (some [])).2 = .ok (some wStudentEdited) ∧
    (StudentDB.delete_student dbOne (pyOfString ("1001")) (some [])).2 = .ok true :=
  ⟨by decide, rfl, rfl⟩

/-- Witness for C8: a lookup miss is the not-found error and a non-empty
mismatched editor_branch is the authorization error, for both operations. -/
theorem C8_witness :
    (StudentDB.edit_student initDB ['9'] [] none = (initDB, .error .notFoundError) ∧
      StudentDB.delete_student initDB ['9'] none = (initDB, .error .notFoundError)) ∧
    (StudentDB.edit_student dbOne (pyOfString ("1001")) [] (some (pyOfString ("ec"))) =
        (dbOne, .error .authorizationError) ∧
      StudentDB.delete_student dbOne (pyOfString ("1001")) (some (pyOfString ("ec"))) =
        (dbOne, .error .authorizationError)) :=
  ⟨(C8_edit_delete_guards initDB ['9'] [] none [] wStudent).1 rfl,
    (C8_edit_delete_guards dbOne (pyOfString ("1001")) [] (some (pyOfString ("ec")))
      (pyOfString ("ec")) wStudent).2 rfl rfl (by decide) (by decide)⟩

/-! ### Claim C6: PRN issuance -/

theorem update_student_ok (db db2 : DB) (prn : PyStr) (L : List (String × PyStr))
    (h : Storage.update_student db prn L = .ok db2) :
    db2 = { db with students :=
      db.students.map (fun s => if s.prn == prn then applyUpdates s L else s) } := by
  simp only [Storage.update_student] at h
  split at h
  · simp at h
  · split at h
    · simp at h
    · split at h
      · exact (Except.ok.inj h).symm
      · simp at h

theorem edit_nextPrn (db : DB) (prn : PyStr) (updates : List (String × PyStr))
    (eb : Option PyStr) :
    (StudentDB.edit_student db prn updates eb).1.nextPrn = db.nextPrn := by
  simp only [StudentDB.edit_student]
  split
  · rfl
  · split
    · rfl
    · split
      · rfl
      · split
        · rfl
        · next heq => rw [update_student_ok _ _ _ _ heq]

theorem delete_nextPrn (db : DB) (prn : PyStr) (eb : Option PyStr) :
    (StudentDB.delete_student db prn eb).1.nextPrn = db.nextPrn := by
  simp only [StudentDB.delete_student]
  split
  · rfl
  · split
    · rfl
    · rfl

theorem register_nextPrn_cases (db : DB) (u pw fn ln br salt extra : PyStr) :
    (StudentDB.register_student db u pw fn ln br salt extra).1.nextPrn = db.nextPrn ∨
    (StudentDB.register_student db u pw fn ln br salt extra).1.nextPrn = db.nextPrn + 1 := by
  simp only [StudentDB.register_student, Storage.get_next_prn]
  split
  · exact Or.inl rfl
  · split
    · exact Or.inl rfl
    · split
      · exact Or.inr rfl
      · split
        · exact Or.inr rfl
        · split
          · exact Or.inr rfl
          · next heq => exact Or.inr (by rw [insert_student_ok _ _ _ heq])

theorem stepOp_nextPrn_mono (db : DB) (op : Op) : db.nextPrn ≤ (stepOp db op).nextPrn := by
  cases op with
  | register u pw f l b s e =>
    rcases register_nextPrn_cases db u pw f l b s e with h | h <;>
      · simp only [stepOp]
        omega
  | edit prn upd eb =>
    simp only [stepOp, edit_nextPrn]
    omega
  | delete prn eb =>
    simp only [stepOp, delete_nextPrn]
    omega

theorem issuedInOp_cases (db : DB) (op : Op) :
    issuedInOp db op = [] ∨ issuedInOp db op = [natToStr db.nextPrn] := by
  cases op with
  | register u pw f l b s e =>
    simp only [issuedInOp]
    split
    · exact Or.inl rfl
    · split
      · exact Or.inl rfl
      · exact Or.inr rfl
  | edit a b c => exact Or.inl rfl
  | delete a b => exact Or.inl rfl

theorem issuedInOp_bound (db : DB) (op : Op) (p : PyStr) (hp : p ∈ issuedInOp db op) :
    pyInt p = db.nextPrn ∧ db.nextPrn < (stepOp db op).nextPrn := by
  cases op with
  | edit a b c => simp [issuedInOp] at hp
  | delete a b => simp [issuedInOp] at hp
  | register u pw f l b s e =>
    simp only [issuedInOp] at hp
    split at hp
    · simp at hp
    · next u' hv =>
      split at hp
      · simp at hp
      · next hf =>
        simp only [Storage.get_next_prn, List.mem_singleton] at hp
        subst hp
        have hcond : ¬(u = [] ∨ pyStrip u = []) ∧ u' = pyStrip u := by
          unfold validate_nonempty at hv
          by_cases hc : u = [] ∨ pyStrip u = []
          · rw [if_pos hc] at hv
            cases hv
          · rw [if_neg hc] at hv
            exact ⟨hc, (Except.ok.inj hv).symm⟩
        have hu : pyStrip u ≠ [] := fun hh => hcond.1 (Or.inr hh)
        have hf2 : Storage.find_student_by_username db (pyLower (pyStrip u)) = none := by
          rw [← hcond.2]
          exact hf
        constructor
        · exact pyInt_natToStr db.nextPrn
        · have hstep := register_late_nextPrn db u pw f l b s e hu hf2
          simp only [stepOp]
          omega

theorem issuedPrns_lower (db : DB) (ops : List Op) :
    ∀ p ∈ issuedPrns db ops, db.nextPrn ≤ pyInt p := by
  induction ops generalizing db with
  | nil =>
    intro p hp
    simp [issuedPrns] at hp
  | cons op ops ih =>
    intro p hp
    simp only [issuedPrns, List.mem_append] at hp
    rcases hp with hp | hp
    · exact le_of_eq (issuedInOp_bound db op p hp).1.symm
    · exact le_trans (stepOp_nextPrn_mono db op) (ih (stepOp db op) p hp)

theorem issuedPrns_increasing (db : DB) (ops : List Op) :
    List.Pairwise (fun a b => pyInt a < pyInt b) (issuedPrns db ops) := by
  induction ops generalizing db with
  | nil => exact List.Pairwise.nil
  | cons op ops ih =>
    simp only [issuedPrns]
    apply List.pairwise_append.mpr
    refine ⟨?_, ih (stepOp db op), ?_⟩
    · rcases issuedInOp_cases db op with h | h <;> rw [h] <;> simp
    · intro a ha b hb
      have h1 := issuedInOp_bound db op a ha
      have h2 := issuedPrns_lower (stepOp db op) ops b hb
      omega

/-- C6: PRNs are monotone and unique: `get_next_prn` returns the counter
value as a decimal string and advances the counter by exactly one; no
operation (deletion included) ever decreases the counter; along any run of
operations the issued PRNs are numerically strictly increasing, hence never
reused. -/
theorem C6_prn_monotone :
    (∀ db, Storage.get_next_prn db =
      ({ db with nextPrn := db.nextPrn + 1 }, natToStr db.nextPrn)) ∧
    (∀ db op, db.nextPrn ≤ (stepOp db op).nextPrn) ∧
    (∀ db ops, List.Pairwise (fun a b => pyInt a < pyInt b) (issuedPrns db ops)) ∧
    (∀ db ops, List.Pairwise (fun a b : PyStr => a ≠ b) (issuedPrns db ops)) := by
  refine ⟨fun db => rfl, stepOp_nextPrn_mono, issuedPrns_increasing, ?_⟩
  intro db ops
  exact (issuedPrns_increasing db ops).imp (fun h hab => by rw [hab] at h; exact lt_irrefl _ h)

/-! ### Field-preservation lemmas for the edit path (claim C9) -/

theorem applyField_prn (s : Student) (k : String) (v : PyStr) (h : k ≠ "prn") :
    (applyField s k v).prn = s.prn := by
  simp only [applyField, apply_ite Student.prn]
  rw [beq_eq_false_iff_ne.mpr h]
  simp [ite_self]

theorem applyField_username (s : Student) (k : String) (v : PyStr) (h : k ≠ "username") :
    (applyField s k v).username = s.username := by
  simp only [applyField, apply_ite Student.username]
  rw [beq_eq_false_iff_ne.mpr h]
  simp [ite_self]

theorem applyField_salt (s : Student) (k : String) (v : PyStr) (h : k ≠ "salt") :
    (applyField s k v).salt = s.salt := by
  simp only [applyField, apply_ite Student.salt]
  rw [beq_eq_false_iff_ne.mpr h]
  simp [ite_self]

theorem applyField_pw_hash (s : Student) (k : String) (v : PyStr) (h : k ≠ "pw_hash") :
    (applyField s k v).pw_hash = s.pw_hash := by
  simp only [applyField, apply_ite Student.pw_hash]
  rw [beq_eq_false_iff_ne.mpr h]
  simp [ite_self]

theorem applyField_branch (s : Student) (k : String) (v : PyStr) (h : k ≠ "branch") :
    (applyField s k v).branch = s.branch := by
  simp only [applyField, apply_ite Student.branch]
  rw [beq_eq_false_iff_ne.mpr h]
  simp [ite_self]

theorem applyField_division (s : Student) (k : String) (v : PyStr) (h : k ≠ "division") :
    (applyField s k v).division = s.division := by
  simp only [applyField, apply_ite Student.division]
  rw [beq_eq_false_iff_ne.mpr h]
  simp [ite_self]

theorem applyField_class_roll (s : Student) (k : String) (v : PyStr) (h : k ≠ "class_roll") :
    (applyField s k v).class_roll = s.class_roll := by
  simp only [applyField, apply_ite Student.class_roll]
  rw [beq_eq_false_iff_ne.mpr h]
  simp [ite_self]

theorem applyField_email (s : Student) (k : String) (v : PyStr) (h : k ≠ "email") :
    (applyField s k v).email = s.email := by
  simp only [applyField, apply_ite Student.email]
  rw [beq_eq_false_iff_ne.mpr h]
  simp [ite_self]

theorem applyUpdates_proj (f : Student → PyStr) (k0 : String)
    (hf : ∀ s k v, k ≠ k0 → f (applyField s k v) = f s) :
    ∀ (L : List (String × PyStr)) (s : Student),
      (∀ kv ∈ L, kv.1 ≠ k0) → f (applyUpdates s L) = f s := by
  intro L
  induction L with
  | nil => intro s _; rfl
  | cons kv L ih =>
    intro s h
    show f (applyUpdates (applyField s kv.1
      (if kv.1 == "extra" then jsonDump kv.2 else kv.2)) L) = f s
    rw [ih _ (fun kv2 hm => h kv2 (List.mem_cons_of_mem _ hm)),
      hf _ _ _ (h kv (List.mem_cons_self _ _))]

theorem lastVal_eq_none_iff (L : List (String × PyStr)) (k : String) :
    lastVal L k = none ↔ ∀ kv ∈ L, kv.1 ≠ k := by
  unfold lastVal
  simp [List.find?_eq_none, List.mem_reverse]

theorem lastVal_some_mem (L : List (String × PyStr)) (k : String) (v : PyStr)
    (h : lastVal L k = some v) : ∃ kv ∈ L, kv.1 = k := by
  unfold lastVal at h
  cases hfind : L.reverse.find? (fun kv => kv.1 == k) with
  | none => rw [hfind] at h; cases h
  | some kv0 =>
    have hmem := List.mem_of_find?_eq_some hfind
    have hprop := List.find?_some hfind
    exact ⟨kv0, List.mem_reverse.mp hmem, by simpa using hprop⟩

theorem setKey_keys (L : List (String × PyStr)) (k k2 : String) (v : PyStr)
    (h : ∀ kv ∈ L, kv.1 ≠ k2) (hk : k ≠ k2) : ∀ kv ∈ setKey L k v, kv.1 ≠ k2 := by
  intro kv hm
  simp only [setKey] at hm
  rcases List.mem_append.mp hm with hm0 | hm0
  · exact h kv (List.mem_of_mem_filter hm0)
  · simp only [List.mem_singleton] at hm0
    subst hm0
    exact hk

theorem allowed_mem_cases (x : String) (hx : allowedFields.contains x = true) :
    x = "first_name" ∨ x = "last_name" ∨ x = "email" ∨ x = "extra" ∨ x = "branch" := by
  have hmem : x ∈ allowedFields := by
    simpa [List.contains] using hx
  simpa [allowedFields] using hmem

theorem applied_keys_safe (updates : List (String × PyStr)) :
    ∀ kv ∈ updates.filter (fun kv => allowedFields.contains kv.1),
      kv.1 ≠ "prn" ∧ kv.1 ≠ "username" ∧ kv.1 ≠ "salt" ∧ kv.1 ≠ "pw_hash" ∧
      kv.1 ≠ "division" ∧ kv.1 ≠ "class_roll" := by
  intro kv hm
  have hx := (List.mem_filter.mp hm).2
  rcases allowed_mem_cases kv.1 hx with h|h|h|h|h <;> rw [h] <;>
    exact ⟨by decide, by decide, by decide, by decide, by decide, by decide⟩

theorem setKey3_keys (L : List (String × PyStr)) (v1 v2 v3 : PyStr) (k2 : String)
    (h : ∀ kv ∈ L, kv.1 ≠ k2)
    (h1 : "branch" ≠ k2) (h2 : "division" ≠ k2) (h3 : "class_roll" ≠ k2) :
    ∀ kv ∈ setKey (setKey (setKey L ("branch") v1) ("division") v2) ("class_roll") v3,
      kv.1 ≠ k2 :=
  setKey_keys _ _ _ _ (setKey_keys _ _ _ _ (setKey_keys _ _ _ _ h h1) h2) h3

/-- C9: a successful edit_student call only modifies allow-listed fields
(first_name, last_name, email, extra, branch — plus division and class_roll
when branch changes): keys outside the allow-list are ignored (filtering
them away gives the same call result), prn, username and credential fields
are never changed, rows with a different prn are untouched, and when the
updates contain no "branch" key the branch, division and class_roll are
unchanged; the stored email changes only when an "email" key is given — in
particular a name edit leaves it unchanged. -/
theorem C9_edit_frame :
    ∀ db prn updates eb db2 r,
      StudentDB.edit_student db prn updates eb = (db2, .ok r) →
      (StudentDB.edit_student db prn
          (updates.filter (fun kv => allowedFields.contains kv.1)) eb = (db2, .ok r)) ∧
      List.Forall₂ (fun s s2 : Student =>
        s2.prn = s.prn ∧ s2.username = s.username ∧ s2.salt = s.salt ∧
        s2.pw_hash = s.pw_hash ∧
        (s.prn ≠ prn → s2 = s) ∧
        ((∀ kv ∈ updates, kv.1 ≠ "branch") →
          s2.branch = s.branch ∧ s2.division = s.division ∧ s2.class_roll = s.class_roll) ∧
        ((∀ kv ∈ updates, kv.1 ≠ "email") → s2.email = s.email))
        db.students db2.students := by
  intro db prn updates eb db2 r h
  constructor
  · have hfilt : (updates.filter (fun kv => allowedFields.contains kv.1)).filter
        (fun kv => allowedFields.contains kv.1) =
        updates.filter (fun kv => allowedFields.contains kv.1) := by
      rw [List.filter_filter]
      simp
    rw [← h]
    simp only [StudentDB.edit_student, hfilt]
  · simp only [StudentDB.edit_student] at h
    split at h
    · simp at h
    · split at h
      · simp at h
      · split at h
        · simp at h
        · next applied2 hA =>
          split at h
          · simp at h
          · next db3 hU =>
            rw [Prod.mk.injEq] at h
            obtain ⟨hdb, hr⟩ := h
            subst hdb
            have hdb3 := update_student_ok _ _ _ _ hU
            subst hdb3
            show List.Forall₂ _ db.students
              (List.map (fun s => if (s.prn == prn) = true then applyUpdates s applied2 else s)
                db.students)
            rw [List.forall₂_map_right_iff, List.forall₂_same]
            intro x hx
            by_cases hpx : (x.prn == prn) = true
            · rw [if_pos hpx]
              have hsafe := applied_keys_safe updates
              split at hA
              · next hlv =>
                have happ : applied2 = updates.filter (fun kv => allowedFields.contains kv.1) :=
                  (Except.ok.inj hA).symm
                subst happ
                refine ⟨applyUpdates_proj Student.prn ("prn") applyField_prn _ x
                    (fun kv hm => (hsafe kv hm).1),
                  applyUpdates_proj Student.username ("username") applyField_username _ x
                    (fun kv hm => (hsafe kv hm).2.1),
                  applyUpdates_proj Student.salt ("salt") applyField_salt _ x
                    (fun kv hm => (hsafe kv hm).2.2.1),
                  applyUpdates_proj Student.pw_hash ("pw_hash") applyField_pw_hash _ x
                    (fun kv hm => (hsafe kv hm).2.2.2.1),
                  fun hne => absurd (by simpa using hpx) hne,
                  fun hbf => ⟨applyUpdates_proj Student.branch ("branch") applyField_branch _ x
                      (fun kv hm => hbf kv (List.mem_filter.mp hm).1),
                    applyUpdates_proj Student.division ("division") applyField_division _ x
                      (fun kv hm => (hsafe kv hm).2.2.2.2.1),
                    applyUpdates_proj Student.class_roll ("class_roll") applyField_class_roll _ x
                      (fun kv hm => (hsafe kv hm).2.2.2.2.2)⟩,
                  fun hef => applyUpdates_proj Student.email ("email") applyField_email _ x
                    (fun kv hm => hef kv (List.mem_filter.mp hm).1)⟩
              · next bval hlv =>
                split at hA
                · simp at hA
                · next nd hassign =>
                  split at hA
                  · simp at hA
                  · next nr hroll =>
                    have happ := (Except.ok.inj hA).symm
                    subst happ
                    refine ⟨applyUpdates_proj Student.prn ("prn") applyField_prn _ x
                        (setKey3_keys _ _ _ _ _ (fun kv hm => (hsafe kv hm).1)
                          (by decide) (by decide) (by decide)),
                      applyUpdates_proj Student.username ("username") applyField_username _ x
                        (setKey3_keys _ _ _ _ _ (fun kv hm => (hsafe kv hm).2.1)
                          (by decide) (by decide) (by decide)),
                      applyUpdates_proj Student.salt ("salt") applyField_salt _ x
                        (setKey3_keys _ _ _ _ _ (fun kv hm => (hsafe kv hm).2.2.1)
                          (by decide) (by decide) (by decide)),
                      applyUpdates_proj Student.pw_hash ("pw_hash") applyField_pw_hash _ x
                        (setKey3_keys _ _ _ _ _ (fun kv hm => (hsafe kv hm).2.2.2.1)
                          (by decide) (by decide) (by decide)),
                      fun hne => absurd (by simpa using hpx) hne,
                      fun hbf => by
                        obtain ⟨kv, hkv, hkk⟩ := lastVal_some_mem _ _ _ hlv
                        exact absurd hkk (hbf kv (List.mem_filter.mp hkv).1),
                      fun hef => applyUpdates_proj Student.email ("email") applyField_email _ x
                        (setKey3_keys _ _ _ _ _ (fun kv hm => hef kv (List.mem_filter.mp hm).1)
                          (by decide) (by decide) (by decide))⟩
            · rw [if_neg hpx]
              exact ⟨rfl, rfl, rfl, rfl, fun _ => rfl, fun _ => ⟨rfl, rfl, rfl⟩, fun _ => rfl⟩

/-- Witness for C9: a concrete successful edit (allow-listed "first_name"
plus ignored junk key "phone") satisfying the frame conditions. -/
theorem C9_witness :
    (StudentDB.edit_student dbOne (pyOfString ("1001"))
        ([(("first_name"), ['N']), (("phone"), ['9'])].filter
          (fun kv => allowedFields.contains kv.1)) none =
      ({ nextPrn := 1002, students := [wStudentEdited] }, .ok (some wStudentEdited))) ∧
    List.Forall₂ (fun s s2 : Student =>
        s2.prn = s.prn ∧ s2.username = s.username ∧ s2.salt = s.salt ∧
        s2.pw_hash = s.pw_hash ∧
        (s.prn ≠ pyOfString ("1001") → s2 = s) ∧
        ((∀ kv ∈ [(("first_name"), ['N']), (("phone"), ['9'])], kv.1 ≠ "branch") →
          s2.branch = s.branch ∧ s2.division = s.division ∧ s2.class_roll = s.class_roll) ∧
        ((∀ kv ∈ [(("first_name"), ['N']), (("phone"), ['9'])], kv.1 ≠ "email") →
          s2.email = s.email))
      dbOne.students ({ nextPrn := 1002, students := [wStudentEdited] } : DB).students :=
  C9_edit_frame dbOne (pyOfString ("1001")) [(("first_name"), ['N']), (("phone"), ['9'])] none
    { nextPrn := 1002, students := [wStudentEdited] } (some wStudentEdited) rfl

/-! ### Claim C3: the capacity invariant -/

theorem nodupB_iff : ∀ l : List PyStr, nodupB l = true ↔ l.Nodup := by
  intro l
  induction l with
  | nil => simp [nodupB]
  | cons x xs ih =>
    simp [nodupB, List.nodup_cons, ih, List.contains]

theorem uniqueOk_rolls (l : List Student) (h : uniqueOk l = true) :
    (l.map (fun s => s.class_roll)).Nodup := by
  unfold uniqueOk at h
  simp only [Bool.and_eq_true] at h
  exact (nodupB_iff _).mp h.1.2

theorem insert_student_checks (db : DB) (st : Student) (db2 : DB)
    (h : Storage.insert_student db st = .ok db2) :
    db2.students = db.students ++ [st] ∧
      ∀ t ∈ db.students, t.class_roll ≠ st.class_roll := by
  simp only [Storage.insert_student] at h
  split at h
  · simp at h
  · split at h
    · simp at h
    · next hroll =>
      split at h
      · simp at h
      · refine ⟨by rw [← Except.ok.inj h], ?_⟩
        intro t ht heq
        simp only [List.any_eq_true] at hroll
        push_neg at hroll
        exact hroll t ht (beq_iff_eq.mpr heq)

theorem generate_class_roll_ok (db : DB) (branch division r : PyStr)
    (h : StudentDB.generate_class_roll db branch division = .ok r) :
    ∃ n, 1 ≤ n ∧ n ≤ MAX_PER_DIVISION ∧ r = branch_code branch ++ division ++ pad2 n := by
  simp only [StudentDB.generate_class_roll] at h
  split at h
  · simp at h
  · next hcur =>
    exact ⟨Storage.count_by_branch_division db branch division + 1, by omega, by omega,
      (Except.ok.inj h).symm⟩

theorem register_inv (db : DB) (u pw fn ln br salt extra : PyStr) (hinv : DBInv db) :
    DBInv (StudentDB.register_student db u pw fn ln br salt extra).1 := by
  simp only [StudentDB.register_student, Storage.get_next_prn]
  split
  · exact hinv
  · split
    · exact hinv
    · split
      · exact hinv
      · next d hd =>
        split
        · exact hinv
        · next r hr =>
          split
          · exact hinv
          · next db2 hins =>
            obtain ⟨hst, hnew⟩ := insert_student_checks _ _ _ hins
            constructor
            · intro t ht
              rw [hst] at ht
              rcases List.mem_append.mp ht with ht | ht
              · exact hinv.1 t ht
              · simp only [List.mem_singleton] at ht
                subst ht
                obtain ⟨n, h1, h2, h3⟩ := generate_class_roll_ok _ _ _ _ hr
                exact ⟨n, h1, h2, by rw [h3, branch_code_norm]⟩
            · rw [hst, List.map_append]
              refine (List.perm_append_singleton _ _).nodup_iff.mpr ?_
              rw [List.nodup_cons]
              refine ⟨?_, hinv.2⟩
              intro hmem
              rcases List.mem_map.mp hmem with ⟨t, ht, heq⟩
              exact hnew t ht heq

theorem rollOK_of_fields (t t' : Student) (hb : t'.branch = t.branch)
    (hd : t'.division = t.division) (hc : t'.class_roll = t.class_roll)
    (h : RollOK t) : RollOK t' := by
  obtain ⟨n, h1, h2, h3⟩ := h
  exact ⟨n, h1, h2, by rw [hc, hb, hd]; exact h3⟩

theorem applyUpdates_append (s : Student) (L : List (String × PyStr)) (kv : String × PyStr) :
    applyUpdates s (L ++ [kv]) =
      applyField (applyUpdates s L) kv.1 (if kv.1 == "extra" then jsonDump kv.2 else kv.2) := by
  unfold applyUpdates
  rw [List.foldl_append]
  rfl

theorem applyUpdates_setKey3 (A : List (String × PyStr)) (nb nd nr : PyStr) (t : Student) :
    (applyUpdates t (setKey (setKey (setKey A ("branch") nb) ("division") nd)
      ("class_roll") nr)).branch = nb ∧
    (applyUpdates t (setKey (setKey (setKey A ("branch") nb) ("division") nd)
      ("class_roll") nr)).division = nd ∧
    (applyUpdates t (setKey (setKey (setKey A ("branch") nb) ("division") nd)
      ("class_roll") nr)).class_roll = nr := by
  have e1 : List.filter (fun kv => !(kv.1 == "division")) [(("branch" : String), nb)] =
    [(("branch"), nb)] := rfl
  have e2 : List.filter (fun kv => !(kv.1 == "class_roll")) [(("branch" : String), nb)] =
    [(("branch"), nb)] := rfl
  have e3 : List.filter (fun kv => !(kv.1 == "class_roll")) [(("division" : String), nd)] =
    [(("division"), nd)] := rfl
  simp only [setKey, List.filter_append, e1, e2, e3, List.append_assoc]
  refine ⟨?_, ?_, ?_⟩
  · rw [show ([(("branch" : String), nb)] ++ ([(("division" : String), nd)] ++
        [(("class_roll" : String), nr)])) = ([(("branch" : String), nb)] ++
        [(("division" : String), nd)]) ++ [(("class_roll" : String), nr)] by rw [List.append_assoc],
      ← List.append_assoc, applyUpdates_append, applyField_branch _ _ _ (by simp),
      ← List.append_assoc, applyUpdates_append, applyField_branch _ _ _ (by simp),
      applyUpdates_append]
    rfl
  · rw [show ([(("branch" : String), nb)] ++ ([(("division" : String), nd)] ++
        [(("class_roll" : String), nr)])) = ([(("branch" : String), nb)] ++
        [(("division" : String), nd)]) ++ [(("class_roll" : String), nr)] by rw [List.append_assoc],
      ← List.append_assoc, applyUpdates_append, applyField_division _ _ _ (by simp),
      ← List.append_assoc, applyUpdates_append]
    rfl
  · rw [show ([(("branch" : String), nb)] ++ ([(("division" : String), nd)] ++
        [(("class_roll" : String), nr)])) = ([(("branch" : String), nb)] ++
        [(("division" : String), nd)]) ++ [(("class_roll" : String), nr)] by rw [List.append_assoc],
      ← List.append_assoc, applyUpdates_append]
    rfl

theorem update_student_ok_unique (db db3 : DB) (prn : PyStr) (L : List (String × PyStr))
    (h : Storage.update_student db prn L = .ok db3) :
    uniqueOk db3.students = true := by
  have hsh := update_student_ok _ _ _ _ h
  simp only [Storage.update_student] at h
  split at h
  · simp at h
  · split at h
    · simp at h
    · split at h
      · next huniq =>
        rw [hsh]
        exact huniq
      · simp at h

theorem edit_inv (db : DB) (prn : PyStr) (updates : List (String × PyStr)) (eb : Option PyStr)
    (hinv : DBInv db) : DBInv (StudentDB.edit_student db prn updates eb).1 := by
  simp only [StudentDB.edit_student]
  split
  · exact hinv
  · split
    · exact hinv
    · split
      · exact hinv
      · next applied2 hA =>
        split
        · exact hinv
        · next db3 hU =>
          have hsh := update_student_ok _ _ _ _ hU
          have hun := uniqueOk_rolls _ (update_student_ok_unique _ _ _ _ hU)
          constructor
          · intro t2 ht2
            rw [hsh] at ht2
            rcases List.mem_map.mp ht2 with ⟨t, ht, heq⟩
            subst heq
            by_cases hpt : (t.prn == prn) = true
            · rw [if_pos hpt]
              split at hA
              · next hlv =>
                have happ : applied2 = updates.filter (fun kv => allowedFields.contains kv.1) :=
                  (Except.ok.inj hA).symm
                subst happ
                have hkeysb := (lastVal_eq_none_iff _ _).mp hlv
                have hsafe := applied_keys_safe updates
                exact rollOK_of_fields t _
                  (applyUpdates_proj Student.branch ("branch") applyField_branch _ t hkeysb)
                  (applyUpdates_proj Student.division ("division") applyField_division _ t
                    (fun kv hm => (hsafe kv hm).2.2.2.2.1))
                  (applyUpdates_proj Student.class_roll ("class_roll") applyField_class_roll _ t
                    (fun kv hm => (hsafe kv hm).2.2.2.2.2))
                  (hinv.1 t ht)
              · next bval hlv =>
                split at hA
                · simp at hA
                · next nd hassign =>
                  split at hA
                  · simp at hA
                  · next nr hroll =>
                    have happ := (Except.ok.inj hA).symm
                    subst happ
                    obtain ⟨n, h1, h2, h3⟩ := generate_class_roll_ok _ _ _ _ hroll
                    obtain ⟨hb, hd, hc⟩ := applyUpdates_setKey3
                      (updates.filter (fun kv => allowedFields.contains kv.1))
                      (pyUpper bval) nd nr t
                    exact ⟨n, h1, h2, by rw [hc, hb, hd]; exact h3⟩
            · rw [if_neg hpt]
              exact hinv.1 t ht
          · exact hun

theorem delete_inv (db : DB) (prn : PyStr) (eb : Option PyStr) (hinv : DBInv db) :
    DBInv (StudentDB.delete_student db prn eb).1 := by
  simp only [StudentDB.delete_student]
  split
  · exact hinv
  · split
    · exact hinv
    · constructor
      · intro t ht
        exact hinv.1 t (List.mem_of_mem_filter ht)
      · exact List.Nodup.sublist ((List.filter_sublist _).map _) hinv.2

theorem stepOp_inv (db : DB) (op : Op) (hinv : DBInv db) : DBInv (stepOp db op) := by
  cases op with
  | register u pw f l b s e => exact register_inv db u pw f l b s e hinv
  | edit prn upd eb => exact edit_inv db prn upd eb hinv
  | delete prn eb => exact delete_inv db prn eb hinv

theorem runOps_inv (ops : List Op) : ∀ db, DBInv db → DBInv (runOps db ops) := by
  induction ops with
  | nil => intro db h; exact h
  | cons op ops ih => intro db h; exact ih _ (stepOp_inv db op h)

theorem initDB_inv : DBInv initDB := by
  constructor
  · intro s hs
    simp [initDB] at hs
  · simp [initDB]

theorem count_le_of_inv (db : DB) (hinv : DBInv db) (b d : PyStr) :
    Storage.count_by_branch_division db b d ≤ MAX_PER_DIVISION := by
  unfold Storage.count_by_branch_division
  have hnodup : ((db.students.filter
      (fun s => s.branch == pyUpper b && s.division == d)).map (fun s => s.class_roll)).Nodup :=
    List.Nodup.sublist ((List.filter_sublist _).map _) hinv.2
  have hsub : ((db.students.filter (fun s => s.branch == pyUpper b && s.division == d)).map
      (fun s => s.class_roll)) ⊆
      (List.range MAX_PER_DIVISION).map (fun i => branch_code (pyUpper b) ++ d ++ pad2 (i + 1)) := by
    intro r hr
    rcases List.mem_map.mp hr with ⟨s, hs, heq⟩
    have hmem := List.mem_filter.mp hs
    have hcond := hmem.2
    simp only [Bool.and_eq_true, beq_iff_eq] at hcond
    obtain ⟨n, h1, h2, h3⟩ := hinv.1 s hmem.1
    refine List.mem_map.mpr ⟨n - 1, List.mem_range.mpr (by omega), ?_⟩
    have hn : n - 1 + 1 = n := by omega
    rw [hn, ← heq, h3, hcond.1, hcond.2]
  have hlen := (hnodup.subperm hsub).length_le
  rw [List.length_map, List.length_map, List.length_range] at hlen
  exact hlen

theorem assign_division_full (db : DB) (branch : PyStr)
    (h : ∀ d ∈ DIVISIONS, MAX_PER_DIVISION ≤ Storage.count_by_branch_division db branch d) :
    StudentDB.assign_division db branch = .error .capacityError := by
  have h1 := h ['1'] (by simp [DIVISIONS])
  have h2 := h ['2'] (by simp [DIVISIONS])
  have h3 := h ['3'] (by simp [DIVISIONS])
  simp only [StudentDB.assign_division, DIVISIONS, assignLoop]
  rw [if_neg (by omega), if_neg (by omega), if_neg (by omega)]

/-- C3: starting from the fresh store, after any sequence of registrations,
edits (branch transfers included) and deletions, no (branch, division) count
ever exceeds the capacity of 70; and a registration into a fully packed
branch (all three divisions at capacity) fails with the capacity error and
inserts no record. -/
theorem C3_capacity_bound :
    (∀ ops b d, Storage.count_by_branch_division (runOps initDB ops) b d ≤ MAX_PER_DIVISION) ∧
    (∀ db u pw fn ln br salt extra,
      pyStrip u ≠ [] →
      Storage.find_student_by_username db (pyLower (pyStrip u)) = none →
      (∀ d ∈ DIVISIONS, MAX_PER_DIVISION ≤ Storage.count_by_branch_division db br d) →
      (StudentDB.register_student db u pw fn ln br salt extra).2 = .error .capacityError ∧
      (StudentDB.register_student db u pw fn ln br salt extra).1.students = db.students) := by
  constructor
  · intro ops b d
    exact count_le_of_inv _ (runOps_inv ops initDB initDB_inv) b d
  · intro db u pw fn ln br salt extra hu hf hfull
    have hassign : StudentDB.assign_division { db with nextPrn := db.nextPrn + 1 } br =
        .error .capacityError := assign_division_full _ _ hfull
    simp only [StudentDB.register_student, validate_nonempty, Storage.get_next_prn]
    rw [if_neg (not_validate_cond u hu)]
    simp only [hf, hassign]
    exact ⟨trivial, trivial⟩

/-- Witness for C3: registering a fresh user into the fully packed branch CS
is the capacity error and leaves the rows unchanged. -/
theorem C3_witness :
    pyStrip (pyOfString ("newu")) ≠ [] ∧
    Storage.find_student_by_username packedDB (pyLower (pyStrip (pyOfString ("newu")))) = none ∧
    (∀ d ∈ DIVISIONS, MAX_PER_DIVISION ≤
      Storage.count_by_branch_division packedDB (pyOfString ("CS")) d) ∧
    (StudentDB.register_student packedDB (pyOfString ("newu")) (pyOfString ("pw"))
        (pyOfString ("A")) (pyOfString ("B")) (pyOfString ("CS")) [] []).2 =
      .error .capacityError ∧
    (StudentDB.register_student packedDB (pyOfString ("newu")) (pyOfString ("pw"))
        (pyOfString ("A")) (pyOfString ("B")) (pyOfString ("CS")) [] []).1.students =
      packedDB.students :=
  ⟨by decide, by decide, by decide,
    C3_capacity_bound.2 packedDB (pyOfString ("newu")) (pyOfString ("pw")) (pyOfString ("A"))
      (pyOfString ("B")) (pyOfString ("CS")) [] [] (by decide) (by decide) (by decide)⟩
